import Mathlib

/-!
A verification development for the ResearchAgent workflow core
(planner, researcher/task executor, workflow nodes, and the recency
layer of the similarity cache).  Python dict-shaped records are
embedded as structures with explicit optional fields; external
collaborators (LLM, search adapters, embedding/vector index, hashing
and string-similarity libraries) are ports passed in as parameters.
Machine floats are modelled as exact rationals.
-/

/-- One unit of planned research work (workflow/state.py SubTask, manipulated
as an open dict in the agents).  `task_id` is mandatory in every plan the
workflow builds; JSON tasks lacking it are modelled with `task_id = 0`, the
value the planner's `t.get('task_id', 0)` sort key would use.  Absent
`search_queries`/`sources` keys are modelled as `[]`, matching every read
site (`task.get(key, [])` / the falsy-`or` default in the planner). -/
structure SubTask where
  task_id : Nat
  description : String := ""
  search_queries : List String := []
  sources : List String := []
  status : Option String := none
  priority : Option Nat := none
deriving DecidableEq

/-- A research plan (workflow/state.py PlanStructure). -/
structure PlanStructure where
  research_goal : String := ""
  sub_tasks : List SubTask := []
  completion_criteria : String := ""
  estimated_iterations : Option Nat := none
deriving DecidableEq

/-- One structured item inside a live search result (adapter payload,
opaque to the workflow core). -/
structure ResultItem where
  title : String := ""
  url : String := ""
  snippet : String := ""
deriving DecidableEq

/-- The Python code stores either a list of items (live and error results)
or a plain summary string (cached results) under the same `results` key. -/
inductive ResultsField where
  | items : List ResultItem → ResultsField
  | text : String → ResultsField
deriving DecidableEq

/-- A TaskResult dict as appended to `state['research_results']`:
live adapter dicts, synthetic error dicts built in `Researcher._search`,
and cached-hit dicts built in `Researcher._create_cached_result`. -/
structure SearchResult where
  query : String := ""
  source : String := ""
  results : ResultsField := ResultsField.items []
  error : Option String := none
  task_id : Option Nat := none
  similarity_score : Option ℚ := none
  cached_quality : Option ℚ := none
  cache_timestamp : Option Nat := none
deriving DecidableEq

/-- The shared workflow state (workflow/state.py ResearchState). -/
structure ResearchState where
  query : String := ""
  query_type : String := "RESEARCH"
  research_plan : Option PlanStructure := none
  plan_approved : Bool := false
  research_results : List SearchResult := []
  current_task : Option SubTask := none
  iteration_count : Nat := 0
  max_iterations : Nat := 0
  needs_more_research : Bool := true
  final_report : Option String := none
  output_format : String := "markdown"
  current_step : String := ""
  user_feedback : Option String := none
  auto_approve_plan : Bool := false
  simple_response : Option String := none
deriving DecidableEq

/-- A record returned by `VectorMemory.find_similar_queries`. -/
structure CacheHit where
  query : String
  results_summary : String
  similarity : ℚ
  quality_score : ℚ
  timestamp : Nat
  query_id : String
deriving DecidableEq

/- ----------------------------------------------------------------- -/
/- Planner (RAgents/agents/planner.py)                               -/
/- ----------------------------------------------------------------- -/

/-- The opening-brace character scanned for by the JSON extraction. -/
def lbrace : Char := Char.ofNat 123

/-- The closing-brace character scanned for by the JSON extraction. -/
def rbrace : Char := Char.ofNat 125

/-- planner.py lines 25-28 and 76-79: `start = response.find(lbrace)`,
`end = response.rfind(rbrace) + 1`; the bounded substring is used only when
`start != -1 and end > start`. -/
def extractJson (response : String) : Option String :=
  let cs := response.toList
  match cs.findIdx? (· = lbrace), cs.reverse.findIdx? (· = rbrace) with
  | some s, some jr =>
    let e := cs.length - 1 - jr
    if s < e + 1 then some (String.mk ((cs.drop s).take (e + 1 - s))) else none
  | _, _ => none

/-- Planner._create_fallback_plan. -/
def fallbackPlan (query : String) : PlanStructure :=
  { research_goal := query
    sub_tasks := [
      { task_id := 1
        description := "Research: " ++ query
        search_queries := [query]
        sources := ["tavily"]
        status := some "pending"
        priority := some 1 }]
    completion_criteria := "Gather sufficient information to answer the query"
    estimated_iterations := some 2 }

/-- planner.py line 33: `allowed_sources = set(["tavily"])`. -/
def allowedSources : List String := ["tavily"]

/-- planner.py lines 35-38, applied to one sub-task: default the sources
list when falsy, keep only allowed sources, reset to the default source when
filtering empties the list, and default the status to pending. -/
def filterTaskSources (t : SubTask) : SubTask :=
  let srcs := if t.sources = [] then ["tavily"] else t.sources
  let kept := srcs.filter fun s => allowedSources.contains s
  { t with
    sources := if kept = [] then ["tavily"] else kept
    status := some (t.status.getD "pending") }

/-- planner.py lines 33-38: the source-filtering loop over `sub_tasks`. -/
def applySourceFilter (p : PlanStructure) : PlanStructure :=
  { p with sub_tasks := p.sub_tasks.map filterTaskSources }

/-- Planner.create_research_plan after the LLM call, as a function of the
model's raw `response` text.  `parse` is the json.loads port: `none` models
a JSONDecodeError on the bounded substring, which the code catches by
installing the fallback plan without touching `max_iterations`. -/
def createResearchPlan (parse : String → Option PlanStructure)
    (response : String) (st : ResearchState) : ResearchState :=
  match extractJson response with
  | some js =>
    match parse js with
    | some plan0 =>
      let plan := applySourceFilter plan0
      { st with
        research_plan := some plan
        max_iterations := plan.estimated_iterations.getD 3 }
    | none =>
      { st with research_plan := some (fallbackPlan st.query) }
  | none =>
    let plan := applySourceFilter (fallbackPlan st.query)
    { st with
      research_plan := some plan
      max_iterations := plan.estimated_iterations.getD 3 }

/-- Planner.modify_plan after the LLM call: same JSON extraction, but the
parsed plan replaces `research_plan` verbatim (no source filtering), and
both the no-braces case and a parse failure leave the state unchanged. -/
def modifyPlan (parse : String → Option PlanStructure)
    (response : String) (st : ResearchState) : ResearchState :=
  match extractJson response with
  | some js =>
    match parse js with
    | some p => { st with research_plan := some p }
    | none => st
  | none => st

/-- Planner.evaluate_context_sufficiency as a function of the raw LLM
response text.  The second component records whether the LLM judgment call
was reached (the prompt is only built and sent on that final branch). -/
def evaluateContextSufficiency (llmResponse : String) (st : ResearchState) :
    Bool × Bool :=
  if st.max_iterations ≤ st.iteration_count then (true, false)
  else if st.research_results = [] then (false, false)
  else if 2 ≤ st.iteration_count ∧ 10 ≤ st.research_results.length then
    (true, false)
  else (llmResponse.trim.toUpper == "YES", true)

/-- The sort key of Planner.get_next_task:
`(t.get('priority', 99), t.get('task_id', 0))`, compared lexicographically
as Python tuples are. -/
def taskSortLE (a b : SubTask) : Prop :=
  a.priority.getD 99 < b.priority.getD 99 ∨
    (a.priority.getD 99 = b.priority.getD 99 ∧ a.task_id ≤ b.task_id)

instance : DecidableRel taskSortLE := fun a b => by
  unfold taskSortLE; infer_instance

instance : IsTotal SubTask taskSortLE :=
  ⟨fun a b => by unfold taskSortLE; omega⟩

instance : IsTrans SubTask taskSortLE :=
  ⟨fun a b c hab hbc => by unfold taskSortLE at *; omega⟩

instance : IsRefl SubTask taskSortLE :=
  ⟨fun a => by unfold taskSortLE; omega⟩

/-- Planner.get_next_task: stable-sort the sub-tasks by
`(priority, task_id)` and return the first pending one; `none` when there
is no plan or nothing is pending.  `List.insertionSort` is a stable sort,
matching the stability guarantee of Python's `sorted`. -/
def getNextTask (st : ResearchState) : Option SubTask :=
  match st.research_plan with
  | none => none
  | some plan =>
    (List.insertionSort taskSortLE plan.sub_tasks).find?
      fun t => t.status == some "pending"

/- ----------------------------------------------------------------- -/
/- Researcher (RAgents/agents/researcher.py)                         -/
/- ----------------------------------------------------------------- -/

/-- Outcome of one call into an external search adapter
(tavily / arxiv / mcp): either the adapter's result dict, or a raised
exception with its message. -/
inductive AdapterOutcome where
  | ok : SearchResult → AdapterOutcome
  | exn : String → AdapterOutcome

/-- The Researcher instance's environment: which optional adapters were
configured at construction, the adapters themselves as ports, the vector
memory flag and its lookup port, and the per-task request budget
(researcher.py line 27, default 3). -/
structure REnv where
  tavilyConfigured : Bool
  mcpConfigured : Bool
  tavily : String → AdapterOutcome
  arxiv : String → AdapterOutcome
  mcp : String → AdapterOutcome
  vectorEnabled : Bool
  findSimilar : String → ℚ → Nat → List CacheHit
  maxRequestsPerTask : Nat := 3

/-- The synthetic error dict built in Researcher._search's except block:
`{'query': query, 'source': source, 'results': [], 'error': str(e)}`. -/
def errorResult (q s msg : String) : SearchResult :=
  { query := q, source := s, results := ResultsField.items [], error := some msg }

/-- Run one adapter call under Researcher._search's try/except: an
exception degrades to the synthetic error dict. -/
def runAdapter (q s : String) : AdapterOutcome → SearchResult
  | AdapterOutcome.ok r => r
  | AdapterOutcome.exn e => errorResult q s e

/-- Researcher._search: dispatch on the source tag; unrecognized sources
and unconfigured optional adapters return `None` (no exception). -/
def searchStep (env : REnv) (q s : String) : Option SearchResult :=
  if s = "tavily" ∧ env.tavilyConfigured = true then
    some (runAdapter q s (env.tavily q))
  else if s = "arxiv" then some (runAdapter q s (env.arxiv q))
  else if s = "mcp" ∧ env.mcpConfigured = true then
    some (runAdapter q s (env.mcp q))
  else none

/-- researcher.py line 65: `result['task_id'] = task['task_id']`. -/
def tagTask (tid : Nat) (r : SearchResult) : SearchResult :=
  { r with task_id := some tid }

/-- The inner `for source in task.get('sources', [])` loop of
Researcher.execute_task (lines 59-66): before each request, break once the
accumulated request count reaches the budget; every issued request counts,
and only truthy results are appended (tagged with the task id). -/
def innerLoop (env : REnv) (B tid : Nat) (q : String) :
    List String → List SearchResult × Nat → List SearchResult × Nat
  | [], acc => acc
  | s :: rest, acc =>
    if B ≤ acc.2 then acc
    else
      match searchStep env q s with
      | some r => innerLoop env B tid q rest (acc.1 ++ [tagTask tid r], acc.2 + 1)
      | none => innerLoop env B tid q rest (acc.1, acc.2 + 1)

/-- The outer `for query in task.get('search_queries', [])` loop of
Researcher.execute_task (lines 58-68): run the inner loop, then break once
the count reaches the budget. -/
def outerLoop (env : REnv) (B tid : Nat) :
    List String → List String → List SearchResult × Nat →
      List SearchResult × Nat
  | [], _, acc => acc
  | q :: qs, ss, acc =>
    let acc2 := innerLoop env B tid q ss acc
    if B ≤ acc2.2 then acc2 else outerLoop env B tid qs ss acc2

/-- researcher.py lines 126-130: mark the first sub-task with a matching
task_id completed (the loop breaks after the first match). -/
def markFirstCompleted : List SubTask → Nat → List SubTask
  | [], _ => []
  | t :: ts, tid =>
    if t.task_id = tid then { t with status := some "completed" } :: ts
    else t :: markFirstCompleted ts tid

/-- Researcher._add_results_to_state: extend `research_results` and, when a
plan is present, mark the executed task completed. -/
def addResultsToState (st : ResearchState) (results : List SearchResult)
    (task : SubTask) : ResearchState :=
  { st with
    research_results := st.research_results ++ results
    research_plan := st.research_plan.map fun p =>
      { p with sub_tasks := markFirstCompleted p.sub_tasks task.task_id } }

/-- Researcher._create_cached_result: the single TaskResult synthesized
from the best cached hit. -/
def createCachedResult (task : SubTask) (best : CacheHit) : List SearchResult :=
  [{ query := task.description
     source := "cached_vector_memory"
     results := ResultsField.text best.results_summary
     task_id := some task.task_id
     similarity_score := some best.similarity
     cached_quality := some best.quality_score
     cache_timestamp := some best.timestamp }]

/-- Python's `max(xs, key=lambda x: x['similarity'])`: fold keeping the
current maximum, replacing it only on a strictly larger key, so the first
maximal element wins. -/
def pyMaxBySim : CacheHit → List CacheHit → CacheHit
  | b, [] => b
  | b, x :: xs => pyMaxBySim (if b.similarity < x.similarity then x else b) xs

/-- Result of one Researcher.execute_task call: the new state, the number
of `_search` requests issued, and the query key of the
`store_research_result` call when one was made. -/
structure ExecOutcome where
  state : ResearchState
  searchCalls : Nat
  storedQuery : Option String
deriving DecidableEq

/-- The high-quality cache candidates of researcher.py lines 40-48: the
probe (threshold 0.8, limit 3) filtered by
`similarity > 0.9 and quality_score >= 4.0`; empty when vector memory is
disabled (the probe is then never made). -/
def highQualitySimilar (env : REnv) (task : SubTask) : List CacheHit :=
  if env.vectorEnabled then
    (env.findSimilar task.description 0.8 3).filter fun q =>
      decide ((0.9 : ℚ) < q.similarity) && decide ((4 : ℚ) ≤ q.quality_score)
  else []

/-- Researcher.execute_task: cache-hit early return when a filtered
candidate exists, otherwise the bounded nested search loop followed by the
vector-memory write-back (when enabled and results were obtained) and the
state update. -/
def executeTask (env : REnv) (st : ResearchState) (task : SubTask) :
    ExecOutcome :=
  match highQualitySimilar env task with
  | best0 :: rest =>
    let best := pyMaxBySim best0 rest
    { state := addResultsToState st (createCachedResult task best) task
      searchCalls := 0
      storedQuery := none }
  | [] =>
    let lr := outerLoop env env.maxRequestsPerTask task.task_id
      task.search_queries task.sources ([], 0)
    { state := addResultsToState st lr.1 task
      searchCalls := lr.2
      storedQuery :=
        if env.vectorEnabled ∧ lr.1 ≠ [] then some task.description else none }

/- ----------------------------------------------------------------- -/
/- Workflow nodes (RAgents/workflow/nodes.py)                        -/
/- ----------------------------------------------------------------- -/

/-- WorkflowNodes.researcher_node: set the step marker, fetch the next
pending task; when one exists, execute it, record it as current and bump
`iteration_count`; otherwise clear `needs_more_research`.  The second
component counts how many tasks were executed during the node. -/
def researcherNode (env : REnv) (st : ResearchState) : ResearchState × Nat :=
  let st1 := { st with current_step := "researching" }
  match getNextTask st1 with
  | some t =>
    let st2 := (executeTask env st1 t).state
    ({ st2 with current_task := some t, iteration_count := st2.iteration_count + 1 }, 1)
  | none => ({ st1 with needs_more_research := false }, 0)

/- ----------------------------------------------------------------- -/
/- VectorMemory recency cache (RAgents/utils/vector.py)              -/
/- ----------------------------------------------------------------- -/

/-- A stored cache document (vector.py lines 56-63; the metadata mapping is
never read by the lookup paths and is omitted).  Timestamps are seconds. -/
structure CacheDoc where
  query : String
  results_summary : String
  quality_score : ℚ
  timestamp : Nat
  query_id : String
deriving DecidableEq

/-- One `recent_cache` slot: the document plus its insertion timestamp. -/
structure CacheEntry where
  data : CacheDoc
  time : Nat
deriving DecidableEq

/-- The VectorMemory state that is repository logic: the recency cache and
the no-embedding fallback store, both insertion-ordered mappings (Python
dicts preserve insertion order, and assigning to an existing key keeps its
position). -/
structure VMState where
  recentCache : List (String × CacheEntry) := []
  fallbackStorage : List (String × CacheDoc) := []
deriving DecidableEq

/-- The VectorMemory environment: the content hash (`hashlib.md5` truncated
to 16 hex characters), the two external string-similarity libraries
(difflib.SequenceMatcher().ratio and Levenshtein.distance), and the
chromadb persistent index as a port returning (cosine distance, document)
pairs. -/
structure VMEnv where
  qid : String → String
  seqSim : String → String → ℚ
  editDist : String → String → Nat
  chromaAvailable : Bool
  chromaQuery : String → Nat → List (ℚ × CacheDoc)

/-- vector.py line 49: `cache_max_size = 100`. -/
def cacheMaxSize : Nat := 100

/-- vector.py line 50: the 2-hour cache expiry, in seconds. -/
def cacheExpirySeconds : Nat := 7200

/-- VectorMemory._is_cache_expired: age strictly above the TTL. -/
def isExpired (now : Nat) (e : CacheEntry) : Bool :=
  decide (cacheExpirySeconds < now - e.time)

/-- Python dict assignment `m[k] = v` on an insertion-ordered mapping:
update in place when the key exists (keeping its position), else append. -/
def dictSet {α : Type} (m : List (String × α)) (k : String) (v : α) :
    List (String × α) :=
  if m.any fun p => p.1 == k then
    m.map fun p => if p.1 = k then (k, v) else p
  else m ++ [(k, v)]

/-- vector.py lines 164-167: when at capacity, delete the entry whose
timestamp is minimal (Python's `min` keeps the first minimal key). -/
def evictOldest (m : List (String × CacheEntry)) : List (String × CacheEntry) :=
  match m with
  | [] => []
  | p :: _ =>
    let best := m.foldl (fun b q => if q.2.time < b.2.time then q else b) p
    m.eraseP fun q => q.1 == best.1

/-- VectorMemory._update_cache. -/
def updateCache (now : Nat) (m : List (String × CacheEntry)) (k : String)
    (doc : CacheDoc) : List (String × CacheEntry) :=
  let m1 := if cacheMaxSize ≤ m.length then evictOldest m else m
  dictSet m1 k ⟨doc, now⟩

/-- The `results` argument of store_research_result: either a plain string
or a dict that may carry `search_results` and/or `final_report` keys. -/
inductive ResultsPayload where
  | text : String → ResultsPayload
  | record : Option (List SearchResult) → Bool → ResultsPayload

/-- VectorMemory._summarize_results. -/
def summarizeResults : ResultsPayload → String
  | ResultsPayload.text s =>
    if 500 < s.length then s.take 500 ++ "..." else s
  | ResultsPayload.record sr fr =>
    let parts :=
      (match sr with
       | some l => ["Found " ++ toString l.length ++ " results"]
       | none => []) ++ (if fr then ["Report generated"] else [])
    String.intercalate " | " parts

/-- VectorMemory.store_research_result: build the document, write it into
the recency cache, then write to chromadb when available (an external
effect on the persistent index, not tracked here) or to the fallback store
otherwise. -/
def storeResearchResult (env : VMEnv) (now : Nat) (vm : VMState)
    (query : String) (results : ResultsPayload) (quality : ℚ) : VMState :=
  let qidv := env.qid query
  let doc : CacheDoc :=
    { query := query
      results_summary := summarizeResults results
      quality_score := quality
      timestamp := now
      query_id := qidv }
  let vm1 := { vm with recentCache := updateCache now vm.recentCache qidv doc }
  if env.chromaAvailable then vm1
  else { vm1 with fallbackStorage := dictSet vm1.fallbackStorage qidv doc }

/-- Charwise lowercasing, the model of Python's `str.lower()`. -/
def lowerStr (s : String) : String := String.mk (s.data.map Char.toLower)

/-- Accumulator-based splitter behind the model of Python's `str.split()`:
split on whitespace runs, dropping empty pieces. -/
def splitWordsAux : List Char → List Char → List String
  | [], acc => if acc = [] then [] else [String.mk acc.reverse]
  | c :: rest, acc =>
    if c.isWhitespace then
      if acc = [] then splitWordsAux rest []
      else String.mk acc.reverse :: splitWordsAux rest []
    else splitWordsAux rest (c :: acc)

/-- Python's no-argument `str.split()`. -/
def pySplit (s : String) : List String := splitWordsAux s.data []

/-- The word set of a query: `set(s.lower().split())`. -/
def wordSet (s : String) : Finset String := (pySplit (lowerStr s)).toFinset

/-- The composite similarity score of VectorMemory._check_cache for one
live entry: 0.3 word overlap + 0.4 sequence similarity + 0.2 edit
similarity + 0.1 length similarity.  The caller guarantees that the probe
or the cached query has at least one word, so the word-overlap denominator
is nonzero. -/
def entrySim (env : VMEnv) (query : String) (doc : CacheDoc) : ℚ :=
  let qw := wordSet query
  let cw := wordSet doc.query
  let ql := lowerStr query
  let cl := lowerStr doc.query
  let wordSim : ℚ := (qw ∩ cw).card / max qw.card cw.card
  let strSim := env.seqSim ql cl
  let editSim : ℚ :=
    if 0 < max ql.length cl.length then
      1 - (env.editDist ql cl : ℚ) / max ql.length cl.length
    else 0
  let lenSim : ℚ :=
    1 - |(query.length : ℚ) - (doc.query.length : ℚ)| /
      max query.length doc.query.length
  0.3 * wordSim + 0.4 * strSim + 0.2 * editSim + 0.1 * lenSim

/-- One candidate of the _check_cache loop: skip expired entries, keep
those whose composite score is strictly above the internal 0.55 gate. -/
def candOf (env : VMEnv) (now : Nat) (query : String)
    (p : String × CacheEntry) : Option CacheHit :=
  if isExpired now p.2 then none
  else
    let sim := entrySim env query p.2.data
    if (0.55 : ℚ) < sim then
      some
        { query := p.2.data.query
          results_summary := p.2.data.results_summary
          similarity := sim
          quality_score := p.2.data.quality_score
          timestamp := p.2.data.timestamp
          query_id := p.1 }
    else none

/-- Descending order on similarity, the key of
`sorted(..., key=lambda x: x['similarity'], reverse=True)`. -/
def simDescLE (a b : CacheHit) : Prop := b.similarity ≤ a.similarity

instance : DecidableRel simDescLE := fun a b => by
  unfold simDescLE; infer_instance

instance : IsTotal CacheHit simDescLE :=
  ⟨fun a b => by unfold simDescLE; rcases le_total a.similarity b.similarity with h | h
                 · exact Or.inr h
                 · exact Or.inl h⟩

instance : IsTrans CacheHit simDescLE :=
  ⟨fun a b c hab hbc => by unfold simDescLE at *; exact le_trans hbc hab⟩

/-- VectorMemory._check_cache.  `none` models the uncaught
ZeroDivisionError in the word-overlap ratio, raised exactly when the probe
and some live cached query both have empty word sets (the length-ratio
division cannot fail first, since two empty strings also have empty word
sets).  Otherwise: the live candidates above the 0.55 gate, sorted by
similarity descending (stable), truncated to the top 3. -/
def checkCache (env : VMEnv) (now : Nat)
    (cache : List (String × CacheEntry)) (query : String) :
    Option (List CacheHit) :=
  if cache.any fun p =>
      !isExpired now p.2 && decide ((wordSet query).card = 0) &&
        decide ((wordSet p.2.data.query).card = 0) then none
  else
    some ((List.insertionSort simDescLE (cache.filterMap (candOf env now query))).take 3)

/-- VectorMemory._fallback_similarity_search: Jaccard word-set similarity
over the flat fallback store, strict 0.3 gate, top-limit descending. -/
def fallbackSimilaritySearch (vm : VMState) (query : String) (limit : Nat) :
    List CacheHit :=
  let qw := wordSet query
  let sims := vm.fallbackStorage.filterMap fun p =>
    let sw := wordSet p.2.query
    let uni := (qw ∪ sw).card
    let sim : ℚ := if 0 < uni then ((qw ∩ sw).card : ℚ) / uni else 0
    if (0.3 : ℚ) < sim then
      some
        { query := p.2.query
          results_summary := p.2.results_summary
          similarity := sim
          quality_score := p.2.quality_score
          timestamp := p.2.timestamp
          query_id := p.1 }
    else none
  (List.insertionSort simDescLE sims).take limit

/-- VectorMemory.find_similar_queries: recency layer first (an internal
exception is caught by the enclosing try and yields []); on a recency miss,
the chromadb index when available (cosine distance converted to similarity,
kept when at least the caller's threshold), else the lexical fallback. -/
def findSimilarQueries (env : VMEnv) (now : Nat) (vm : VMState)
    (query : String) (threshold : ℚ) (limit : Nat) : List CacheHit :=
  match checkCache env now vm.recentCache query with
  | none => []
  | some hits =>
    if hits ≠ [] then hits
    else if env.chromaAvailable then
      (env.chromaQuery query limit).filterMap fun dp =>
        if threshold ≤ 1 - dp.1 then
          some
            { query := dp.2.query
              results_summary := dp.2.results_summary
              similarity := 1 - dp.1
              quality_score := dp.2.quality_score
              timestamp := dp.2.timestamp
              query_id := dp.2.query_id }
        else none
    else fallbackSimilaritySearch vm query limit

/-- A sample researcher environment used to instantiate theorems at
concrete inputs. -/
def sampleREnv : REnv :=
  { tavilyConfigured := false
    mcpConfigured := false
    tavily := fun q => AdapterOutcome.exn ("net:" ++ q)
    arxiv := fun q => AdapterOutcome.ok { query := q, source := "arxiv" }
    mcp := fun q => AdapterOutcome.exn ("net:" ++ q)
    vectorEnabled := false
    findSimilar := fun _ _ _ => [] }

/-- A sample sub-task used to instantiate theorems at concrete inputs. -/
def sampleTask : SubTask :=
  { task_id := 1
    description := "sample"
    search_queries := ["a", "b"]
    sources := ["arxiv", "mcp"] }

/-- A sample vector-memory environment used to instantiate theorems at
concrete inputs. -/
def sampleVMEnv : VMEnv :=
  { qid := fun s => s
    seqSim := fun a b => if a = b then 1 else 0
    editDist := fun _ _ => 0
    chromaAvailable := false
    chromaQuery := fun _ _ => [] }

/-- The (query, source) pairs in the order the nested execute_task loop
visits them: queries outer, sources inner. -/
def taskPairs : List String → List String → List (String × String)
  | [], _ => []
  | q :: qs, ss => (ss.map fun s => (q, s)) ++ taskPairs qs ss

/-- The TaskResult emitted for one attempted (query, source) pair: the
dispatched search outcome, tagged with the task id when truthy. -/
def pairStep (env : REnv) (tid : Nat) (p : String × String) :
    Option SearchResult :=
  (searchStep env p.1 p.2).map (tagTask tid)

/-- The status evolution a sub-task may undergo between two observations
of a plan: unchanged, or flipped to completed. -/
def completesTo (u v : SubTask) : Prop :=
  v = u ∨ v = { u with status := some "completed" }

/- ----------------------------------------------------------------- -/
/- Theorems                                                          -/
/- ----------------------------------------------------------------- -/

/-- C2: evaluate_context_sufficiency applies its cheap heuristics in a
fixed order before any LLM call: at or past the iteration cap it is true
regardless of results (even zero); otherwise empty results force false;
otherwise iteration_count at least 2 with at least 10 results forces true;
only otherwise is the LLM consulted, and the verdict is true exactly when
the trimmed uppercased response equals YES.  In particular 11 results at
iteration 2 of 5 yield true without an LLM call. -/
theorem evaluateSufficiency_heuristic_order (llm : String) (st : ResearchState) :
    (st.max_iterations ≤ st.iteration_count →
      evaluateContextSufficiency llm st = (true, false)) ∧
    (st.iteration_count < st.max_iterations → st.research_results = [] →
      evaluateContextSufficiency llm st = (false, false)) ∧
    (st.iteration_count < st.max_iterations → st.research_results ≠ [] →
      2 ≤ st.iteration_count → 10 ≤ st.research_results.length →
      evaluateContextSufficiency llm st = (true, false)) ∧
    (st.iteration_count < st.max_iterations → st.research_results ≠ [] →
      ¬(2 ≤ st.iteration_count ∧ 10 ≤ st.research_results.length) →
      evaluateContextSufficiency llm st = ((llm.trim.toUpper == "YES"), true)) ∧
    (st.iteration_count = 2 → st.max_iterations = 5 →
      st.research_results.length = 11 →
      evaluateContextSufficiency llm st = (true, false)) := by
  unfold evaluateContextSufficiency
  refine ⟨fun h => ?_, fun h1 h2 => ?_, fun h1 h2 h3 h4 => ?_,
    fun h1 h2 h3 => ?_, fun e1 e2 e3 => ?_⟩
  · rw [if_pos h]
  · rw [if_neg (by omega), if_pos h2]
  · rw [if_neg (by omega), if_neg h2, if_pos ⟨h3, h4⟩]
  · rw [if_neg (by omega), if_neg h2, if_neg h3]
  · have hne : st.research_results ≠ [] := by
      intro hh; rw [hh] at e3; simp at e3
    rw [if_neg (by omega), if_neg hne, if_pos ⟨by omega, by omega⟩]

/-- Witness for C2: 11 results at iteration 2 of 5 give sufficiency true
without consulting the LLM. -/
theorem evaluateSufficiency_heuristic_order_witness :
    evaluateContextSufficiency "IGNORED"
        { iteration_count := 2, max_iterations := 5,
          research_results := List.replicate 11 {} } = (true, false) :=
  (evaluateSufficiency_heuristic_order "IGNORED"
    { iteration_count := 2, max_iterations := 5,
      research_results := List.replicate 11 {} }).2.2.2.2 rfl rfl (by simp)

/-- C3: on malformed planner JSON (no brace pair, or the bounded substring
fails to parse), create_research_plan does not raise and stores exactly the
deterministic single-task fallback plan. -/
theorem createPlan_malformed_fallback (parse : String → Option PlanStructure)
    (response : String) (st : ResearchState)
    (h : extractJson response = none ∨
      ∃ js, extractJson response = some js ∧ parse js = none) :
    (createResearchPlan parse response st).research_plan = some
      { research_goal := st.query
        sub_tasks := [
          { task_id := 1
            description := "Research: " ++ st.query
            search_queries := [st.query]
            sources := ["tavily"]
            status := some "pending"
            priority := some 1 }]
        completion_criteria := "Gather sufficient information to answer the query"
        estimated_iterations := some 2 } := by
  rcases h with hn | ⟨js, hj, hp⟩
  · simp only [createResearchPlan, hn]
    rfl
  · simp only [createResearchPlan, hj, hp]
    rfl

/-- Witness for C3: a response with no JSON braces falls back to the
single-task plan. -/
theorem createPlan_malformed_fallback_witness :
    (createResearchPlan (fun _ => none) "no json here" {}).research_plan = some
      { research_goal := ""
        sub_tasks := [
          { task_id := 1
            description := "Research: " ++ ""
            search_queries := [""]
            sources := ["tavily"]
            status := some "pending"
            priority := some 1 }]
        completion_criteria := "Gather sufficient information to answer the query"
        estimated_iterations := some 2 } :=
  createPlan_malformed_fallback (fun _ => none) "no json here" {}
    (Or.inl (by decide))

/-- C10 counterexample: when the brace-bounded substring fails to parse
(the JSONDecodeError path), create_research_plan installs the fallback plan
whose estimated_iterations is 2 but leaves max_iterations untouched (here
at its prior value 7), contradicting the claim that max_iterations is set
from the plan's estimated_iterations on every fallback path. -/
theorem createPlan_max_iterations_cex :
    (createResearchPlan (fun _ => none) "\x7bx\x7d"
        { max_iterations := 7 }).max_iterations = 7 ∧
    (createResearchPlan (fun _ => none) "\x7bx\x7d"
        { max_iterations := 7 }).research_plan = some (fallbackPlan "") ∧
    (fallbackPlan "").estimated_iterations = some 2 ∧ (7 : Nat) ≠ 2 := by
  decide

/-- C10 amended: create_research_plan sets max_iterations from the stored
plan's estimated_iterations (default 3 when absent) on the successful-parse
path, and to 2 on the no-braces fallback path; on the parse-failure
(JSONDecodeError) fallback path it leaves max_iterations unchanged. -/
theorem createPlan_max_iterations (parse : String → Option PlanStructure)
    (response : String) (st : ResearchState) :
    (∀ js p, extractJson response = some js → parse js = some p →
      (createResearchPlan parse response st).max_iterations =
        p.estimated_iterations.getD 3) ∧
    (extractJson response = none →
      (createResearchPlan parse response st).max_iterations = 2) ∧
    (∀ js, extractJson response = some js → parse js = none →
      (createResearchPlan parse response st).max_iterations =
        st.max_iterations) := by
  refine ⟨fun js p hj hp => ?_, fun hn => ?_, fun js hj hp => ?_⟩
  · simp only [createResearchPlan, hj, hp]
    rfl
  · simp only [createResearchPlan, hn]
    rfl
  · simp only [createResearchPlan, hj, hp]

/-- Witness for amended C10: a successfully parsed plan with
estimated_iterations 4 sets max_iterations to 4. -/
theorem createPlan_max_iterations_witness :
    (createResearchPlan (fun _ => some { estimated_iterations := some 4 })
        "\x7bx\x7d" {}).max_iterations = 4 :=
  (createPlan_max_iterations (fun _ => some { estimated_iterations := some 4 })
    "\x7bx\x7d" {}).1 "\x7bx\x7d" { estimated_iterations := some 4 }
    (by decide) rfl

/-- C7 counterexample: modify_plan stores the parsed plan verbatim, with
no source filtering, so a modified plan keeps a sub-task whose sources list
is exactly ["arxiv"] even though "arxiv" is not in the allowed-source set. -/
theorem modifyPlan_no_source_filter_cex :
    ((modifyPlan (fun _ => some { sub_tasks := [{ task_id := 1, sources := ["arxiv"] }] })
        "\x7bx\x7d" {}).research_plan.map fun p =>
          p.sub_tasks.map fun t => t.sources) = some [["arxiv"]] ∧
    "arxiv" ∉ allowedSources := by
  decide

/-- C7 amended: every plan stored by create_research_plan (on any of its
three paths) has every sub-task's sources nonempty and drawn only from the
allowed-source set, with an emptied list reset to the default ["tavily"];
modify_plan however either leaves the stored plan unchanged or stores the
parsed plan verbatim, without source filtering. -/
theorem storedPlan_sources_invariant :
    (∀ (parse : String → Option PlanStructure) response st p,
      (createResearchPlan parse response st).research_plan = some p →
      ∀ t ∈ p.sub_tasks, t.sources ≠ [] ∧ ∀ s ∈ t.sources, s ∈ allowedSources) ∧
    (∀ (parse : String → Option PlanStructure) response st,
      (modifyPlan parse response st).research_plan = st.research_plan ∨
      ∃ js p, extractJson response = some js ∧ parse js = some p ∧
        (modifyPlan parse response st).research_plan = some p) := by
  constructor
  · intro parse response st p hp t ht
    have hfilter : ∀ p0, t ∈ (applySourceFilter p0).sub_tasks →
        t.sources ≠ [] ∧ ∀ s ∈ t.sources, s ∈ allowedSources := by
      intro p0 hmem
      simp only [applySourceFilter, List.mem_map] at hmem
      obtain ⟨t0, -, rfl⟩ := hmem
      have hsrc : (filterTaskSources t0).sources =
          (if (if t0.sources = [] then ["tavily"] else t0.sources).filter
              (fun s => allowedSources.contains s) = [] then ["tavily"]
           else (if t0.sources = [] then ["tavily"] else t0.sources).filter
              (fun s => allowedSources.contains s)) := rfl
      rw [hsrc]
      by_cases hk : (if t0.sources = [] then ["tavily"] else t0.sources).filter
          (fun s => allowedSources.contains s) = []
      · rw [if_pos hk]
        refine ⟨by simp, ?_⟩
        intro s hs
        simp only [List.mem_singleton] at hs
        simp [allowedSources, hs]
      · rw [if_neg hk]
        refine ⟨hk, ?_⟩
        intro s hs
        have := List.of_mem_filter hs
        simpa [List.contains, List.elem_iff] using this
    cases hj : extractJson response with
    | none =>
      simp only [createResearchPlan, hj, Option.some.injEq] at hp
      subst hp
      exact hfilter _ ht
    | some js =>
      cases hpj : parse js with
      | none =>
        simp only [createResearchPlan, hj, hpj, Option.some.injEq] at hp
        subst hp
        simp only [fallbackPlan, List.mem_singleton] at ht
        subst ht
        refine ⟨by simp, ?_⟩
        intro s hs
        simp only [List.mem_singleton] at hs
        simp [allowedSources, hs]
      | some plan0 =>
        simp only [createResearchPlan, hj, hpj, Option.some.injEq] at hp
        subst hp
        exact hfilter _ ht
  · intro parse response st
    cases hj : extractJson response with
    | none => exact Or.inl (by simp only [modifyPlan, hj])
    | some js =>
      cases hpj : parse js with
      | none => exact Or.inl (by simp only [modifyPlan, hj, hpj])
      | some p =>
        exact Or.inr ⟨js, p, rfl, hpj, by simp only [modifyPlan, hj, hpj]⟩

/-- Witness for amended C7: the plan stored for a response declaring
sources ["arxiv", "tavily"] keeps a nonempty, allowed-only sources list. -/
theorem storedPlan_sources_invariant_witness :
    ({ task_id := 1, sources := ["tavily"], status := some "pending" } : SubTask).sources ≠ [] ∧
    ∀ s ∈ ({ task_id := 1, sources := ["tavily"], status := some "pending" } : SubTask).sources,
      s ∈ allowedSources :=
  storedPlan_sources_invariant.1
    (fun _ => some { sub_tasks := [{ task_id := 1, sources := ["arxiv", "tavily"] }] })
    "\x7bx\x7d" {}
    { sub_tasks := [{ task_id := 1, sources := ["tavily"], status := some "pending" }] }
    (by decide)
    { task_id := 1, sources := ["tavily"], status := some "pending" } (by decide)

/-- The inner source loop visits the first `B - c` sources, counts each
visit, and emits exactly the truthy dispatch outcomes. -/
theorem innerLoop_eq (env : REnv) (B tid : Nat) (q : String) (ss : List String)
    (rs : List SearchResult) (c : Nat) :
    innerLoop env B tid q ss (rs, c) =
      (rs ++ (ss.take (B - c)).filterMap (fun s => pairStep env tid (q, s)),
        c + min (B - c) ss.length) := by
  induction ss generalizing rs c with
  | nil => simp [innerLoop]
  | cons s rest ih =>
    by_cases h : B ≤ c
    · have h0 : B - c = 0 := by omega
      simp [innerLoop, h, h0]
    · have h1 : B - c = (B - (c + 1)) + 1 := by omega
      cases hs : searchStep env q s with
      | none =>
        have hstep : innerLoop env B tid q (s :: rest) (rs, c) =
            innerLoop env B tid q rest (rs, c + 1) := by
          simp only [innerLoop]
          rw [if_neg (by simpa using h), hs]
        rw [hstep, ih]
        refine Prod.ext ?_ ?_
        · simp [pairStep, h1, List.take_succ_cons, List.filterMap_cons, hs]
        · simp only [List.length_cons]
          omega
      | some r =>
        have hstep : innerLoop env B tid q (s :: rest) (rs, c) =
            innerLoop env B tid q rest (rs ++ [tagTask tid r], c + 1) := by
          simp only [innerLoop]
          rw [if_neg (by simpa using h), hs]
        rw [hstep, ih]
        refine Prod.ext ?_ ?_
        · simp [pairStep, h1, List.take_succ_cons, List.filterMap_cons, hs,
            List.append_assoc]
        · simp only [List.length_cons]
          omega

/-- The nested query/source loop of execute_task attempts exactly the first
`B - c` pairs in visit order, counts every attempt, and emits exactly the
truthy dispatch outcomes. -/
theorem outerLoop_eq (env : REnv) (B tid : Nat) (qs ss : List String)
    (rs : List SearchResult) (c : Nat) :
    outerLoop env B tid qs ss (rs, c) =
      (rs ++ ((taskPairs qs ss).take (B - c)).filterMap (pairStep env tid),
        c + min (B - c) (taskPairs qs ss).length) := by
  induction qs generalizing rs c with
  | nil => simp [outerLoop, taskPairs]
  | cons q qs ih =>
    simp only [outerLoop]
    rw [innerLoop_eq]
    by_cases h : B ≤ c + min (B - c) ss.length
    · rw [if_pos (by simpa using h)]
      have hbc : B - c ≤ ss.length := by omega
      refine Prod.ext ?_ ?_
      · simp only [taskPairs]
        rw [List.take_append_of_le_length (by simpa using hbc),
          ← List.map_take, List.filterMap_map]
        rfl
      · simp only [taskPairs, List.length_append, List.length_map]
        omega
    · rw [if_neg (by simpa using h)]
      have hS : ss.length < B - c := by omega
      rw [Nat.min_eq_right hS.le, List.take_of_length_le hS.le, ih]
      refine Prod.ext ?_ ?_
      · have e1 : List.take (B - c) (taskPairs (q :: qs) ss) =
            (ss.map fun s => (q, s)) ++
              List.take (B - c - ss.length) (taskPairs qs ss) := by
          simp only [taskPairs]
          rw [List.take_append_eq_append_take, List.length_map]
          congr 1
          exact List.take_of_length_le (by rw [List.length_map]; exact hS.le)
        have e2 : B - (c + ss.length) = B - c - ss.length := by omega
        show rs ++ _ ++ _ = rs ++ _
        rw [e1, List.filterMap_append, List.filterMap_map, e2,
          List.append_assoc]
        rfl
      · simp only [taskPairs, List.length_append, List.length_map]
        omega

/-- C1: on the non-cache-hit path, with a budget B (default 3) smaller
than queries times sources, execute_task issues at most B search calls in
total: the inner source loop breaks first and the outer query loop breaks
once the count reaches B. -/
theorem executeTask_budget_respected (env : REnv) (st : ResearchState)
    (task : SubTask) (hmiss : highQualitySimilar env task = [])
    (hB : env.maxRequestsPerTask <
      task.search_queries.length * task.sources.length) :
    (executeTask env st task).searchCalls ≤ env.maxRequestsPerTask := by
  have hloop := outerLoop_eq env env.maxRequestsPerTask task.task_id
    task.search_queries task.sources [] 0
  simp only [executeTask, hmiss, hloop]
  omega

/-- Witness for C1: budget 3 with 2 queries over 2 sources issues at most
3 search calls. -/
theorem executeTask_budget_respected_witness :
    (executeTask sampleREnv {} sampleTask).searchCalls ≤ 3 :=
  executeTask_budget_respected sampleREnv {} sampleTask (by decide) (by decide)

/-- C6 counterexample: a (query, source) attempt whose dispatch returns
None (here the tavily source with no tavily adapter configured) counts
toward the budget yet emits no TaskResult at all, so the executor does not
emit exactly one TaskResult per attempted pair. -/
theorem executeTask_one_result_per_attempt_cex :
    (executeTask sampleREnv {}
        { task_id := 1, search_queries := ["q1"], sources := ["tavily"] }).searchCalls = 1 ∧
    (executeTask sampleREnv {}
        { task_id := 1, search_queries := ["q1"], sources := ["tavily"] }).state.research_results = [] := by
  decide

/-- C6 amended: within the budget, execute_task attempts exactly the first
budget-many (query, source) pairs in loop order, every attempt counting
toward the budget; each attempt emits exactly one TaskResult when the
dispatch yields one (a raised search exception is converted into an
error-tagged TaskResult), and emits none when the source is unrecognized
or its adapter is not configured. -/
theorem executeTask_attempts_characterization (env : REnv)
    (st : ResearchState) (task : SubTask)
    (hmiss : highQualitySimilar env task = []) :
    (executeTask env st task).searchCalls =
      ((taskPairs task.search_queries task.sources).take
        env.maxRequestsPerTask).length ∧
    (executeTask env st task).state.research_results =
      st.research_results ++
        ((taskPairs task.search_queries task.sources).take
          env.maxRequestsPerTask).filterMap (pairStep env task.task_id) ∧
    (∀ q e, env.tavilyConfigured = true →
      env.tavily q = AdapterOutcome.exn e →
      searchStep env q "tavily" = some (errorResult q "tavily" e)) ∧
    (∀ q e, env.arxiv q = AdapterOutcome.exn e →
      searchStep env q "arxiv" = some (errorResult q "arxiv" e)) ∧
    (∀ q e, env.mcpConfigured = true → env.mcp q = AdapterOutcome.exn e →
      searchStep env q "mcp" = some (errorResult q "mcp" e)) ∧
    (∀ q, env.tavilyConfigured = false → searchStep env q "tavily" = none) ∧
    (∀ q, env.mcpConfigured = false → searchStep env q "mcp" = none) ∧
    (∀ q s, s ≠ "tavily" → s ≠ "arxiv" → s ≠ "mcp" →
      searchStep env q s = none) := by
  have hloop := outerLoop_eq env env.maxRequestsPerTask task.task_id
    task.search_queries task.sources [] 0
  refine ⟨?_, ?_, ?_, ?_, ?_, ?_, ?_, ?_⟩
  · simp only [executeTask, hmiss, hloop, List.length_take]
    omega
  · simp only [executeTask, hmiss, hloop, addResultsToState]
    simp
  · intro q e hc he
    simp [searchStep, hc, he, runAdapter]
  · intro q e he
    simp [searchStep, he, runAdapter]
  · intro q e hc he
    simp [searchStep, hc, he, runAdapter]
  · intro q hc
    simp [searchStep, hc]
  · intro q hc
    simp [searchStep, hc]
  · intro q s h1 h2 h3
    simp [searchStep, h1, h2, h3]

/-- Witness for amended C6: with arxiv always configured and mcp not,
budget 3 over 2 queries and 2 sources attempts exactly 3 pairs and emits
one TaskResult per pair with a truthy dispatch. -/
theorem executeTask_attempts_characterization_witness :
    (executeTask sampleREnv {} sampleTask).searchCalls =
      ((taskPairs sampleTask.search_queries sampleTask.sources).take
        sampleREnv.maxRequestsPerTask).length ∧
    (executeTask sampleREnv {} sampleTask).state.research_results =
      [] ++ ((taskPairs sampleTask.search_queries sampleTask.sources).take
        sampleREnv.maxRequestsPerTask).filterMap
          (pairStep sampleREnv sampleTask.task_id) :=
  ⟨(executeTask_attempts_characterization sampleREnv {} sampleTask (by decide)).1,
   (executeTask_attempts_characterization sampleREnv {} sampleTask (by decide)).2.1⟩

/-- Python's max over a nonempty list returns an element of it. -/
theorem pyMaxBySim_mem (b : CacheHit) (l : List CacheHit) :
    pyMaxBySim b l ∈ b :: l := by
  induction l generalizing b with
  | nil => simp [pyMaxBySim]
  | cons x xs ih =>
    by_cases hbx : b.similarity < x.similarity
    · simp only [pyMaxBySim, if_pos hbx]
      have := ih x
      simp only [List.mem_cons] at this ⊢
      tauto
    · simp only [pyMaxBySim, if_neg hbx]
      have := ih b
      simp only [List.mem_cons] at this ⊢
      tauto

/-- Python's max over a nonempty list dominates every element's key. -/
theorem pyMaxBySim_le (b : CacheHit) (l : List CacheHit) :
    ∀ x ∈ b :: l, x.similarity ≤ (pyMaxBySim b l).similarity := by
  induction l generalizing b with
  | nil =>
    intro x hx
    simp only [List.mem_singleton] at hx
    subst hx
    simp [pyMaxBySim]
  | cons y ys ih =>
    intro x hx
    simp only [List.mem_cons] at hx
    by_cases hby : b.similarity < y.similarity
    · simp only [pyMaxBySim, if_pos hby]
      rcases hx with hxb | hxy | hx
      · rw [hxb]
        exact le_trans hby.le (ih y y (by simp))
      · rw [hxy]
        exact ih y y (by simp)
      · exact ih y x (by simp [hx])
    · simp only [pyMaxBySim, if_neg hby]
      rcases hx with hxb | hxy | hx
      · rw [hxb]
        exact ih b b (by simp)
      · rw [hxy]
        exact le_trans (not_lt.mp hby) (ih b b (by simp))
      · exact ih b x (by simp [hx])

/-- C5: when the cache probe yields candidates above the 0.9 similarity /
4.0 quality gate, execute_task picks the maximum-similarity one (first
among ties), appends exactly one TaskResult tagged
source = "cached_vector_memory" carrying the cached summary, similarity,
quality and original timestamp, marks the task completed, and returns
early with zero live search calls and no cache write-back. -/
theorem executeTask_cache_hit (env : REnv) (st : ResearchState)
    (task : SubTask) (best0 : CacheHit) (rest : List CacheHit)
    (h : highQualitySimilar env task = best0 :: rest) :
    (executeTask env st task).searchCalls = 0 ∧
    (executeTask env st task).storedQuery = none ∧
    (executeTask env st task).state.research_results =
      st.research_results ++
        [{ query := task.description
           source := "cached_vector_memory"
           results := ResultsField.text (pyMaxBySim best0 rest).results_summary
           error := none
           task_id := some task.task_id
           similarity_score := some (pyMaxBySim best0 rest).similarity
           cached_quality := some (pyMaxBySim best0 rest).quality_score
           cache_timestamp := some (pyMaxBySim best0 rest).timestamp }] ∧
    (executeTask env st task).state.research_plan =
      st.research_plan.map (fun p =>
        { p with sub_tasks := markFirstCompleted p.sub_tasks task.task_id }) ∧
    pyMaxBySim best0 rest ∈ best0 :: rest ∧
    (∀ x ∈ best0 :: rest, x.similarity ≤ (pyMaxBySim best0 rest).similarity) ∧
    (∀ x ∈ best0 :: rest, x ∈ env.findSimilar task.description 0.8 3 ∧
      (0.9 : ℚ) < x.similarity ∧ (4 : ℚ) ≤ x.quality_score) := by
  have hmemall : ∀ x ∈ best0 :: rest,
      x ∈ env.findSimilar task.description 0.8 3 ∧
        (0.9 : ℚ) < x.similarity ∧ (4 : ℚ) ≤ x.quality_score := by
    intro x hx
    rw [← h] at hx
    unfold highQualitySimilar at hx
    split at hx
    · have hm := List.mem_filter.mp hx
      refine ⟨hm.1, ?_⟩
      simpa using hm.2
    · simp at hx
  refine ⟨?_, ?_, ?_, ?_, pyMaxBySim_mem best0 rest, pyMaxBySim_le best0 rest,
    hmemall⟩
  · simp only [executeTask, h]
  · simp only [executeTask, h]
  · simp only [executeTask, h, addResultsToState, createCachedResult]
  · simp only [executeTask, h, addResultsToState, createCachedResult]

/-- Witness for C5: a probe returning one candidate with similarity 0.95
and quality 4.2 short-circuits the task with a single cached TaskResult. -/
theorem executeTask_cache_hit_witness :
    (executeTask
        { sampleREnv with
          vectorEnabled := true
          findSimilar := fun _ _ _ =>
            [{ query := "sample", results_summary := "cached summary",
               similarity := 0.95, quality_score := 4.2, timestamp := 17,
               query_id := "id1" }] }
        {} { task_id := 1, description := "sample" }).searchCalls = 0 :=
  (executeTask_cache_hit
    { sampleREnv with
      vectorEnabled := true
      findSimilar := fun _ _ _ =>
        [{ query := "sample", results_summary := "cached summary",
           similarity := 0.95, quality_score := 4.2, timestamp := 17,
           query_id := "id1" }] }
    {} { task_id := 1, description := "sample" }
    { query := "sample", results_summary := "cached summary",
      similarity := 0.95, quality_score := 4.2, timestamp := 17,
      query_id := "id1" } []
    (by norm_num [highQualitySimilar, List.filter])).1

/-- execute_task never touches iteration_count. -/
theorem executeTask_iteration_count (env : REnv) (st : ResearchState)
    (task : SubTask) :
    (executeTask env st task).state.iteration_count = st.iteration_count := by
  cases h : highQualitySimilar env task with
  | nil => simp [executeTask, h, addResultsToState]
  | cons b rest => simp [executeTask, h, addResultsToState]

/-- C4 counterexample: executing the researcher node on a state whose plan
has no pending task executes zero tasks and leaves iteration_count
unchanged, contradicting the claim that every execution of the node
executes exactly one task and increments iteration_count by 1. -/
theorem researcherNode_no_pending_cex :
    (researcherNode sampleREnv
        { research_plan := some
            { sub_tasks := [{ task_id := 1, status := some "completed" }] },
          iteration_count := 0 }).2 = 0 ∧
    (researcherNode sampleREnv
        { research_plan := some
            { sub_tasks := [{ task_id := 1, status := some "completed" }] },
          iteration_count := 0 }).1.iteration_count = 0 := by
  decide

/-- C4 amended: when a pending task exists the researcher node executes
exactly one task and increments iteration_count by exactly 1; when none
exists it executes no task, leaves iteration_count unchanged, and clears
needs_more_research. -/
theorem researcherNode_iteration (env : REnv) (st : ResearchState) :
    (∀ t, getNextTask st = some t →
      (researcherNode env st).2 = 1 ∧
      (researcherNode env st).1.iteration_count = st.iteration_count + 1) ∧
    (getNextTask st = none →
      (researcherNode env st).2 = 0 ∧
      (researcherNode env st).1.iteration_count = st.iteration_count ∧
      (researcherNode env st).1.needs_more_research = false) := by
  have hplan : getNextTask { st with current_step := "researching" } =
      getNextTask st := rfl
  constructor
  · intro t ht
    refine ⟨?_, ?_⟩
    · simp only [researcherNode, hplan, ht]
    · simp only [researcherNode, hplan, ht]
      rw [executeTask_iteration_count]
  · intro hn
    refine ⟨?_, ?_, ?_⟩
    · simp only [researcherNode, hplan, hn]
    · simp only [researcherNode, hplan, hn]
    · simp only [researcherNode, hplan, hn]

/-- Witness for amended C4: with one pending task, the researcher node
executes it and bumps iteration_count from 0 to 1. -/
theorem researcherNode_iteration_witness :
    (researcherNode sampleREnv
        { research_plan := some
            { sub_tasks := [{ task_id := 1, status := some "pending" }] },
          iteration_count := 0 }).2 = 1 ∧
    (researcherNode sampleREnv
        { research_plan := some
            { sub_tasks := [{ task_id := 1, status := some "pending" }] },
          iteration_count := 0 }).1.iteration_count = 0 + 1 :=
  (researcherNode_iteration sampleREnv
    { research_plan := some
        { sub_tasks := [{ task_id := 1, status := some "pending" }] },
      iteration_count := 0 }).1
    { task_id := 1, status := some "pending" } (by decide)

/-- The first element a find? scan accepts in a sorted list is below every
accepted element. -/
theorem find?_min_of_sorted (l : List SubTask)
    (hs : List.Sorted taskSortLE l) (p : SubTask → Bool) (t : SubTask)
    (h : l.find? p = some t) :
    ∀ u ∈ l, p u = true → taskSortLE t u := by
  induction l with
  | nil => simp at h
  | cons x xs ih =>
    by_cases hpx : p x = true
    · rw [List.find?_cons_of_pos _ hpx] at h
      injection h with h
      subst h
      intro u hu hpu
      rcases List.mem_cons.mp hu with huh | hux
      · rw [huh]
        unfold taskSortLE
        omega
      · exact (List.sorted_cons.mp hs).1 u hux
    · rw [List.find?_cons_of_neg _ hpx] at h
      intro u hu hpu
      rcases List.mem_cons.mp hu with huh | hux
      · rw [huh] at hpu
        exact absurd hpu hpx
      · exact ih (List.sorted_cons.mp hs).2 h u hux hpu

/-- A task that is still pending in the evolved plan was present unchanged
in the original plan. -/
theorem pending_mem_of_completesTo (l l' : List SubTask)
    (h : List.Forall₂ completesTo l l') (v : SubTask) (hv : v ∈ l')
    (hp : v.status = some "pending") : v ∈ l := by
  induction h with
  | nil => simp at hv
  | cons huv hrest ih =>
    rcases List.mem_cons.mp hv with hvh | hv'
    · rcases huv with h1 | h1
      · rw [hvh, h1]
        exact List.mem_cons_self _ _
      · rw [hvh, h1] at hp
        simp at hp
    · exact List.mem_cons_of_mem _ (ih hv')

/-- C9: get_next_task stable-sorts the sub-tasks by (priority, task_id)
and returns the first pending one: it returns none when no plan exists or
nothing is pending; a returned task is pending and minimal under the sort
key among all pending tasks; the result depends only on the plan (same
plan, same task); and as tasks flip from pending to completed between two
observations, the returned tasks are non-decreasing in the sort key. -/
theorem getNextTask_spec :
    (∀ st, st.research_plan = none → getNextTask st = none) ∧
    (∀ st p, st.research_plan = some p →
      (∀ t ∈ p.sub_tasks, t.status ≠ some "pending") →
      getNextTask st = none) ∧
    (∀ st p t, st.research_plan = some p → getNextTask st = some t →
      t ∈ p.sub_tasks ∧ t.status = some "pending" ∧
      ∀ u ∈ p.sub_tasks, u.status = some "pending" → taskSortLE t u) ∧
    (∀ st st', st.research_plan = st'.research_plan →
      getNextTask st = getNextTask st') ∧
    (∀ st st' p p' t t', st.research_plan = some p →
      st'.research_plan = some p' →
      List.Forall₂ completesTo p.sub_tasks p'.sub_tasks →
      getNextTask st = some t → getNextTask st' = some t' →
      taskSortLE t t') := by
  have key : ∀ st p t, st.research_plan = some p → getNextTask st = some t →
      t ∈ p.sub_tasks ∧ t.status = some "pending" ∧
      ∀ u ∈ p.sub_tasks, u.status = some "pending" → taskSortLE t u := by
    intro st p t hsome hfind
    simp only [getNextTask, hsome] at hfind
    have hperm := List.perm_insertionSort taskSortLE p.sub_tasks
    have hsorted := List.sorted_insertionSort taskSortLE p.sub_tasks
    refine ⟨hperm.mem_iff.mp (List.mem_of_find?_eq_some hfind), ?_, ?_⟩
    · simpa using List.find?_some hfind
    · intro u hu hpu
      exact find?_min_of_sorted _ hsorted _ t hfind u
        (hperm.mem_iff.mpr hu) (by simp [hpu])
  refine ⟨?_, ?_, key, ?_, ?_⟩
  · intro st h
    simp only [getNextTask, h]
  · intro st p h hno
    simp only [getNextTask, h]
    rw [List.find?_eq_none]
    intro x hx
    have hxm := (List.perm_insertionSort taskSortLE p.sub_tasks).mem_iff.mp hx
    simpa using hno x hxm
  · intro st st' h
    unfold getNextTask
    rw [h]
  · intro st st' p p' t t' hsome hsome' hstep hfind hfind'
    obtain ⟨-, -, hmin⟩ := key st p t hsome hfind
    obtain ⟨hmem', hpend', -⟩ := key st' p' t' hsome' hfind'
    exact hmin t' (pending_mem_of_completesTo _ _ hstep t' hmem' hpend') hpend'

/-- Witness for C9: on a plan with two pending tasks of priorities 2 and
1, get_next_task returns the priority-1 task, which is pending and
key-minimal among the pending tasks. -/
theorem getNextTask_spec_witness :
    ({ task_id := 1, priority := some 1, status := some "pending" } : SubTask) ∈
      [{ task_id := 2, priority := some 2, status := some "pending" },
       ({ task_id := 1, priority := some 1, status := some "pending" } : SubTask)] ∧
    (some "pending" : Option String) = some "pending" ∧
    (∀ u ∈ [{ task_id := 2, priority := some 2, status := some "pending" },
            ({ task_id := 1, priority := some 1, status := some "pending" } : SubTask)],
      u.status = some "pending" →
      taskSortLE { task_id := 1, priority := some 1, status := some "pending" } u) :=
  getNextTask_spec.2.2.1
    { research_plan := some
        { sub_tasks :=
            [{ task_id := 2, priority := some 2, status := some "pending" },
             { task_id := 1, priority := some 1, status := some "pending" }] } }
    { sub_tasks :=
        [{ task_id := 2, priority := some 2, status := some "pending" },
         { task_id := 1, priority := some 1, status := some "pending" }] }
    { task_id := 1, priority := some 1, status := some "pending" }
    rfl (by decide)

/-- A nonempty string has positive character count. -/
theorem length_pos_of_ne_empty (s : String) (h : s ≠ "") : 0 < s.length := by
  cases s with
  | mk data =>
    cases data with
    | nil => simp at h
    | cons a l => simp [String.length]

/-- Dict assignment stores the new binding. -/
theorem mem_dictSet_self {α : Type} (m : List (String × α)) (k : String)
    (v : α) : (k, v) ∈ dictSet m k v := by
  unfold dictSet
  split
  · rename_i hany
    rw [List.any_eq_true] at hany
    obtain ⟨p, hp, hpk⟩ := hany
    rw [List.mem_map]
    refine ⟨p, hp, ?_⟩
    rw [beq_iff_eq] at hpk
    simp [hpk]
  · exact List.mem_append_right _ (by simp)

/-- After dict assignment, the assigned key binds only the new value. -/
theorem dictSet_unique {α : Type} (m : List (String × α)) (k : String)
    (v : α) : ∀ p ∈ dictSet m k v, p.1 = k → p = (k, v) := by
  unfold dictSet
  split
  · intro p hp hpk
    rw [List.mem_map] at hp
    obtain ⟨q, hq, hqe⟩ := hp
    by_cases hqk : q.1 = k
    · rw [if_pos hqk] at hqe
      exact hqe.symm
    · rw [if_neg hqk] at hqe
      rw [← hqe] at hpk
      exact absurd hpk hqk
  · rename_i hany
    intro p hp hpk
    rcases List.mem_append.mp hp with hm | hs
    · exfalso
      apply hany
      rw [List.any_eq_true]
      exact ⟨p, hm, by simp [hpk]⟩
    · simpa using hs

/-- The recency-cache state written by store_research_result. -/
theorem store_recentCache (env : VMEnv) (now : Nat) (vm : VMState)
    (query : String) (results : ResultsPayload) (quality : ℚ) :
    (storeResearchResult env now vm query results quality).recentCache =
      updateCache now vm.recentCache (env.qid query)
        { query := query, results_summary := summarizeResults results,
          quality_score := quality, timestamp := now,
          query_id := env.qid query } := by
  unfold storeResearchResult
  split <;> rfl

/-- The head of the descending insertion sort is the strict maximum when
one exists. -/
theorem insertionSort_head_of_strict_max (l : List CacheHit) (x : CacheHit)
    (hx : x ∈ l)
    (hmax : ∀ y ∈ l, y ≠ x → y.similarity < x.similarity) :
    (List.insertionSort simDescLE l).head? = some x := by
  have hperm := List.perm_insertionSort simDescLE l
  have hsorted := List.sorted_insertionSort simDescLE l
  cases hsort : List.insertionSort simDescLE l with
  | nil =>
    exfalso
    have hmem : x ∈ List.insertionSort simDescLE l := hperm.mem_iff.mpr hx
    rw [hsort] at hmem
    simp at hmem
  | cons h t =>
    rw [hsort] at hsorted hperm
    have hhl : h ∈ l := hperm.mem_iff.mp (List.mem_cons_self _ _)
    have hxl : x ∈ h :: t := hperm.mem_iff.mpr hx
    by_cases hhx : h = x
    · rw [hhx]
      rfl
    · exfalso
      have h1 : h.similarity < x.similarity := hmax h hhl hhx
      rcases List.mem_cons.mp hxl with hxh | hxt
      · exact hhx hxh.symm
      · have h2 : simDescLE h x := (List.sorted_cons.mp hsorted).1 x hxt
        unfold simDescLE at h2
        exact absurd h1 (not_lt.mpr h2)

/-- The composite recency score of a probe against its own stored query
text is exactly 1. -/
theorem entrySim_self (env : VMEnv) (q : String) (doc : CacheDoc)
    (hdq : doc.query = q)
    (hseq1 : env.seqSim (lowerStr q) (lowerStr q) = 1)
    (hed : env.editDist (lowerStr q) (lowerStr q) = 0)
    (hw : (wordSet q).card ≠ 0) (hlow : (lowerStr q) ≠ "") :
    entrySim env q doc = 1 := by
  have hlen : 0 < (lowerStr q).length := length_pos_of_ne_empty _ hlow
  simp only [entrySim, hdq, Finset.inter_self, max_self, hseq1, hed]
  rw [div_self (by exact_mod_cast hw), if_pos hlen]
  simp
  norm_num

/-- The composite recency score against a live entry whose lowercased
query text differs from the probe's is strictly below 1. -/
theorem entrySim_lt_one (env : VMEnv) (q : String) (doc : CacheDoc)
    (hw : (wordSet q).card ≠ 0)
    (hne : (lowerStr doc.query) ≠ (lowerStr q))
    (hlt : ∀ a b, a ≠ b → env.seqSim a b < 1) :
    entrySim env q doc < 1 := by
  simp only [entrySim]
  have hd : (0:ℚ) <
      ((max (wordSet q).card (wordSet doc.query).card : ℕ) : ℚ) := by
    exact_mod_cast lt_of_lt_of_le (Nat.pos_of_ne_zero hw) (le_max_left _ _)
  have h1 : (((wordSet q) ∩ (wordSet doc.query)).card : ℚ) /
      ((max (wordSet q).card (wordSet doc.query).card : ℕ) : ℚ) ≤ 1 := by
    rw [div_le_one hd]
    exact_mod_cast le_trans
      (Finset.card_le_card Finset.inter_subset_left) (le_max_left _ _)
  have h2 : env.seqSim (lowerStr q) (lowerStr doc.query) < 1 :=
    hlt _ _ (fun hh => hne hh.symm)
  have h3 : (if 0 < max (lowerStr q).length (lowerStr doc.query).length then
      1 - (env.editDist (lowerStr q) (lowerStr doc.query) : ℚ) /
        ((max (lowerStr q).length (lowerStr doc.query).length : ℕ) : ℚ)
      else 0) ≤ 1 := by
    split
    · exact sub_le_self _ (div_nonneg (Nat.cast_nonneg _) (Nat.cast_nonneg _))
    · norm_num
  have h4 : 1 - |(q.length : ℚ) - (doc.query.length : ℚ)| /
      ((max q.length doc.query.length : ℕ) : ℚ) ≤ 1 :=
    sub_le_self _ (div_nonneg (abs_nonneg _) (Nat.cast_nonneg _))
  linarith

/-- The candidate the recency scan produces for the freshly stored entry:
similarity exactly 1. -/
theorem candOf_store (env : VMEnv) (q rs : String) (qual : ℚ) (t0 t1 : Nat)
    (hfresh : t1 - t0 ≤ cacheExpirySeconds)
    (hseq1 : env.seqSim (lowerStr q) (lowerStr q) = 1)
    (hed : env.editDist (lowerStr q) (lowerStr q) = 0)
    (hw : (wordSet q).card ≠ 0) (hlow : (lowerStr q) ≠ "") :
    candOf env t1 q (env.qid q,
      ⟨{ query := q, results_summary := rs, quality_score := qual,
         timestamp := t0, query_id := env.qid q }, t0⟩) =
      some { query := q, results_summary := rs, similarity := 1,
             quality_score := qual, timestamp := t0,
             query_id := env.qid q } := by
  have hexp : isExpired t1
      (⟨{ query := q, results_summary := rs, quality_score := qual,
          timestamp := t0, query_id := env.qid q }, t0⟩ : CacheEntry) = false := by
    simp only [cacheExpirySeconds] at hfresh
    simp only [isExpired, cacheExpirySeconds, decide_eq_false_iff_not]
    omega
  simp only [candOf, hexp, Bool.false_eq_true, if_false]
  rw [entrySim_self env q _ rfl hseq1 hed hw hlow]
  rw [if_pos (by norm_num)]

/-- C8 amended: for every query with at least one word, storing a record
and then probing find_similar_queries with the exact same text within the
same process run and before the 2-hour TTL returns the stored record as
the first recency-layer match, with similarity 1 (at least the 0.55 gate),
provided no other live cache entry shares the probe's lowercased query
text (with at least three such same-text ties the sort's tie-breaking can
push the freshly stored record out of the top-3 window); for a query with
no words the lookup's word-overlap ratio divides by zero and the caught
exception makes find_similar_queries return the empty list instead. -/
theorem findSimilar_after_store_roundtrip (env : VMEnv) (vm : VMState)
    (q : String) (payload : ResultsPayload) (qual : ℚ) (t0 t1 : Nat)
    (threshold : ℚ) (lim : Nat)
    (hseq1 : ∀ s, env.seqSim s s = 1)
    (hseqlt : ∀ a b, a ≠ b → env.seqSim a b < 1)
    (hed : ∀ s, env.editDist s s = 0)
    (hw : (wordSet q).card ≠ 0)
    (hfresh : t1 - t0 ≤ cacheExpirySeconds)
    (huniq : ∀ p ∈ (storeResearchResult env t0 vm q payload qual).recentCache,
      p.1 ≠ env.qid q → isExpired t1 p.2 = false →
      lowerStr p.2.data.query ≠ (lowerStr q)) :
    (findSimilarQueries env t1 (storeResearchResult env t0 vm q payload qual)
        q threshold lim).head? =
      some { query := q, results_summary := summarizeResults payload,
             similarity := 1, quality_score := qual, timestamp := t0,
             query_id := env.qid q } ∧
    (0.55 : ℚ) ≤ (1 : ℚ) := by
  have hlow : (lowerStr q) ≠ "" := by
    intro hh
    apply hw
    unfold wordSet
    rw [hh]
    decide
  refine ⟨?_, by norm_num⟩
  set vmq := storeResearchResult env t0 vm q payload qual with hvm
  have hcache : vmq.recentCache =
      dictSet (if cacheMaxSize ≤ vm.recentCache.length then
          evictOldest vm.recentCache else vm.recentCache)
        (env.qid q)
        ⟨{ query := q, results_summary := summarizeResults payload,
           quality_score := qual, timestamp := t0,
           query_id := env.qid q }, t0⟩ := by
    rw [hvm, store_recentCache]
    rfl
  have hmem : (env.qid q,
      (⟨{ query := q, results_summary := summarizeResults payload,
          quality_score := qual, timestamp := t0,
          query_id := env.qid q }, t0⟩ : CacheEntry)) ∈ vmq.recentCache := by
    rw [hcache]
    exact mem_dictSet_self _ _ _
  have huniqk : ∀ p ∈ vmq.recentCache, p.1 = env.qid q →
      p = (env.qid q,
        (⟨{ query := q, results_summary := summarizeResults payload,
            quality_score := qual, timestamp := t0,
            query_id := env.qid q }, t0⟩ : CacheEntry)) := by
    rw [hcache]
    exact dictSet_unique _ _ _
  have hcself := candOf_store env q (summarizeResults payload) qual t0 t1
    hfresh (hseq1 _) (hed _) hw hlow
  have hour :
      ({ query := q, results_summary := summarizeResults payload,
         similarity := 1, quality_score := qual, timestamp := t0,
         query_id := env.qid q } : CacheHit) ∈
        vmq.recentCache.filterMap (candOf env t1 q) :=
    List.mem_filterMap.mpr ⟨_, hmem, hcself⟩
  have hothers : ∀ y ∈ vmq.recentCache.filterMap (candOf env t1 q),
      y ≠ { query := q, results_summary := summarizeResults payload,
            similarity := 1, quality_score := qual, timestamp := t0,
            query_id := env.qid q } → y.similarity < 1 := by
    intro y hy hyne
    obtain ⟨p, hp, hcp⟩ := List.mem_filterMap.mp hy
    by_cases hpk : p.1 = env.qid q
    · rw [huniqk p hp hpk, hcself] at hcp
      injection hcp with hcp
      exact absurd hcp.symm hyne
    · by_cases hpe : isExpired t1 p.2 = true
      · simp only [candOf, hpe, if_true] at hcp
        exact absurd hcp (by simp)
      · have hpe' : isExpired t1 p.2 = false := by
          rwa [Bool.not_eq_true] at hpe
        simp only [candOf, hpe', Bool.false_eq_true, if_false] at hcp
        have hsim := entrySim_lt_one env q p.2.data hw
          (huniq p hp hpk hpe') hseqlt
        split at hcp
        · injection hcp with hcp
          rw [← hcp]
          exact hsim
        · exact absurd hcp (by simp)
  have hhead : (List.insertionSort simDescLE
      (vmq.recentCache.filterMap (candOf env t1 q))).head? =
      some { query := q, results_summary := summarizeResults payload,
             similarity := 1, quality_score := qual, timestamp := t0,
             query_id := env.qid q } :=
    insertionSort_head_of_strict_max _ _ hour
      (fun y hy hyne => hothers y hy hyne)
  have hnoexc : (vmq.recentCache.any fun p => !isExpired t1 p.2 &&
      decide ((wordSet q).card = 0) &&
      decide ((wordSet p.2.data.query).card = 0)) = false := by
    rw [List.any_eq_false]
    intro p hp
    simp [hw]
  have hcheck : checkCache env t1 vmq.recentCache q =
      some ((List.insertionSort simDescLE
        (vmq.recentCache.filterMap (candOf env t1 q))).take 3) := by
    simp only [checkCache, hnoexc, Bool.false_eq_true, if_false]
  obtain ⟨h0, tl, hsorteq⟩ : ∃ h0 tl, List.insertionSort simDescLE
      (vmq.recentCache.filterMap (candOf env t1 q)) = h0 :: tl := by
    cases hse : List.insertionSort simDescLE
        (vmq.recentCache.filterMap (candOf env t1 q)) with
    | nil =>
      rw [hse] at hhead
      simp at hhead
    | cons a b => exact ⟨a, b, rfl⟩
  have hfind : findSimilarQueries env t1 vmq q threshold lim =
      (List.insertionSort simDescLE
        (vmq.recentCache.filterMap (candOf env t1 q))).take 3 := by
    simp only [findSimilarQueries, hcheck]
    rw [if_pos (by rw [hsorteq]; simp)]
  rw [hfind, hsorteq]
  rw [hsorteq] at hhead
  exact hhead

/-- C8 counterexample: for the empty query (no words), the claim fails:
the record is stored, but the recency scan's word-overlap ratio divides by
zero, the exception is caught by find_similar_queries, and the lookup with
the exact same text returns the empty list, not the stored record. -/
theorem findSimilar_empty_query_cex :
    (storeResearchResult sampleVMEnv 0 {} "" (ResultsPayload.text "r")
        5).recentCache ≠ [] ∧
    findSimilarQueries sampleVMEnv 0
      (storeResearchResult sampleVMEnv 0 {} "" (ResultsPayload.text "r") 5)
      "" 0.8 3 = [] := by
  decide

/-- Witness for amended C8: storing "hello" and probing "hello" in the
same instant returns the stored record first, with similarity 1. -/
theorem findSimilar_after_store_roundtrip_witness :
    (findSimilarQueries sampleVMEnv 0
        (storeResearchResult sampleVMEnv 0 {} "hello"
          (ResultsPayload.text "r") 2) "hello" 0.8 3).head? =
      some { query := "hello",
             results_summary := summarizeResults (ResultsPayload.text "r"),
             similarity := 1, quality_score := 2, timestamp := 0,
             query_id := sampleVMEnv.qid "hello" } ∧
    (0.55 : ℚ) ≤ (1 : ℚ) :=
  findSimilar_after_store_roundtrip sampleVMEnv {} "hello"
    (ResultsPayload.text "r") 2 0 0 0.8 3
    (fun s => by simp [sampleVMEnv])
    (fun a b h => by simp only [sampleVMEnv]; rw [if_neg h]; norm_num)
    (fun s => rfl)
    (by decide)
    (by decide)
    (by decide)
